import Mathlib

/-!
Verification of the Build-Trace change-detection and metrics engine.

The definitions below are a shallow embedding of the Python sources
`app/diff.py` and `app/metrics.py`:
Python dicts keyed by strings become insertion-ordered association lists,
optional dict keys become `Option` fields, numbers become `Int`/`ℚ`,
and wall-clock readings (`datetime.now()`) become explicit `Timestamp`
arguments supplied by the caller.
-/

namespace BuildTrace

/-! ## Association lists (Python dict model)

Python dicts preserve insertion order; assigning to an existing key
replaces the value in place, a new key is appended at the end. -/

/-- Replace the value at key `k` in place, or append `(k, v)` at the end.
Models Python `d[k] = v`. -/
def alUpsert {α : Type} (k : String) (v : α) : List (String × α) → List (String × α)
  | [] => [(k, v)]
  | (k', v') :: rest => if k' = k then (k, v) :: rest else (k', v') :: alUpsert k v rest

/-- First binding of key `k`.  Models Python `d[k]` / `d.get(k)`. -/
def alLookup {α : Type} : List (String × α) → String → Option α
  | [], _ => none
  | (k', v) :: rest, k => if k' = k then some v else alLookup rest k

/-- Models Python `k in d`. -/
def alHasKey {α : Type} (l : List (String × α)) (k : String) : Bool :=
  (alLookup l k).isSome

/-- Increment the counter at key `k` (defaulting to 0 when absent).
Models Python `d[k] = d.get(k, 0) + 1`. -/
def alBump (k : String) : List (String × Nat) → List (String × Nat)
  | [] => [(k, 1)]
  | (k', n) :: rest => if k' = k then (k', n + 1) :: rest else (k', n) :: alBump k rest

/-! ## Data model of the diff engine (`app/diff.py`) -/

/-- A drawing object: a Python dict of which the engine reads the keys
`id`, `type`, `x`, `y`; each may be absent. -/
structure DrawingObject where
  id : Option String
  type : Option String
  x : Option Int
  y : Option Int
deriving DecidableEq, Repr

/-- A moved record as built in `diff` (`from`/`to` are nested dicts in the
source, flattened into four fields here). -/
structure MovedRecord where
  id : String
  type : String
  fromX : Option Int
  fromY : Option Int
  toX : Option Int
  toY : Option Int
  deltaX : Int
  deltaY : Int
deriving DecidableEq, Repr

/-- Result of `diff`, with the derived `stats` counters inlined. -/
structure ChangeSet where
  added : List DrawingObject
  removed : List DrawingObject
  moved : List MovedRecord
  summary : String
  addedCount : Nat
  removedCount : Nat
  movedCount : Nat
  totalChanges : Nat
deriving DecidableEq, Repr

/-- Index a snapshot by object id, skipping objects without an `id` key;
last write wins on a duplicated id.  Models the dict comprehension
`{obj["id"]: obj for obj in a if "id" in obj}`. -/
def buildIndex (objs : List DrawingObject) : List (String × DrawingObject) :=
  objs.foldl
    (fun acc o =>
      match o.id with
      | some k => alUpsert k o acc
      | none => acc)
    []

/-- `get_direction` from `app/diff.py` (deltas are compared with 0 only,
so they are embedded as integers). -/
def getDirection (xDelta yDelta : Int) : String :=
  if xDelta = 0 ∧ yDelta = 0 then "in place"
  else
    let directions : List String :=
      (if |yDelta| > 0 then [if yDelta > 0 then "north" else "south"] else []) ++
      (if |xDelta| > 0 then [if xDelta > 0 then "east" else "west"] else [])
    if directions.length > 1 then String.join directions
    else directions.headD "in place"

/-- Python `", ".join` / `"; ".join`. -/
def pyJoin (sep : String) : List String → String
  | [] => ""
  | [p] => p
  | p :: q :: rest => p ++ sep ++ pyJoin sep (q :: rest)

/-- Python `str.capitalize()` (ASCII case mapping). -/
def pyCapitalize (s : String) : String :=
  match s.data with
  | [] => ""
  | c :: cs => String.mk (c.toUpper :: cs.map Char.toLower)

/-- Rendering of a possibly-absent coordinate inside an f-string:
Python prints `None` for an absent key. -/
def pyOptInt : Option Int → String
  | none => "None"
  | some n => toString n

/-- Group a list of objects by their `type` (defaulting to "object"),
counting occurrences; models the `by_type` dict built in
`generate_summary_simple`. -/
def countsByType (objs : List DrawingObject) : List (String × Nat) :=
  objs.foldl (fun acc o => alBump (o.type.getD "object") acc) []

/-- One `"{count} {type}{'s' if count > 1 else ''}"` fragment. -/
def typeCountStr (p : String × Nat) : String :=
  toString p.2 ++ " " ++ p.1 ++ (if p.2 > 1 then "s" else "")

/-- The summary clause for removed objects (empty list when none). -/
def removedParts (removed : List DrawingObject) : List String :=
  match removed with
  | [] => []
  | [o] => [pyCapitalize (o.type.getD "Object") ++ " " ++ o.id.getD "" ++ " removed"]
  | _ => [pyJoin ", " ((countsByType removed).map typeCountStr) ++ " removed"]

/-- The summary clause for added objects (empty list when none). -/
def addedParts (added : List DrawingObject) : List String :=
  match added with
  | [] => []
  | [o] => [pyCapitalize (o.type.getD "Object") ++ " " ++ o.id.getD "" ++
            " added at (" ++ pyOptInt o.x ++ "," ++ pyOptInt o.y ++ ")"]
  | _ => [pyJoin ", " ((countsByType added).map typeCountStr) ++ " added"]

/-- The summary clause for moved objects (empty list when none). -/
def movedParts (moved : List MovedRecord) : List String :=
  match moved with
  | [] => []
  | [m] => [pyCapitalize m.type ++ " " ++ m.id ++ " moved " ++
            toString (|m.deltaX| + |m.deltaY|) ++ " units " ++
            getDirection m.deltaX m.deltaY]
  | _ => [toString moved.length ++ " objects repositioned"]

/-- `generate_summary_simple` from `app/diff.py`: describes removed, then
added, then moved objects, joined with "; " and terminated with ".". -/
def generateSummarySimple (added removed : List DrawingObject)
    (moved : List MovedRecord) : String :=
  if added = [] ∧ removed = [] ∧ moved = [] then "No changes detected."
  else pyJoin "; " (removedParts removed ++ addedParts added ++ movedParts moved) ++ "."

/-- `diff` from `app/diff.py`.  The summary is the rule-based composer
(`generate_summary_simple`); the optional external-LLM path is outside the
core and falls back to it, and for the empty change set both paths return
the same literal before any external call. -/
def diff (a b : List DrawingObject) : ChangeSet :=
  let aIdx := buildIndex a
  let bIdx := buildIndex b
  let added := bIdx.filterMap
    (fun p => if alHasKey aIdx p.1 then none else some p.2)
  let removed := aIdx.filterMap
    (fun p => if alHasKey bIdx p.1 then none else some p.2)
  let moved := aIdx.filterMap
    (fun p =>
      match alLookup bIdx p.1 with
      | none => none
      | some ob =>
        let oa := p.2
        if oa.x ≠ ob.x ∨ oa.y ≠ ob.y then
          some { id := p.1
                 type := ob.type.getD "unknown"
                 fromX := oa.x, fromY := oa.y
                 toX := ob.x, toY := ob.y
                 deltaX := ob.x.getD 0 - oa.x.getD 0
                 deltaY := ob.y.getD 0 - oa.y.getD 0 }
        else none)
  { added := added
    removed := removed
    moved := moved
    summary := generateSummarySimple added removed moved
    addedCount := added.length
    removedCount := removed.length
    movedCount := moved.length
    totalChanges := added.length + removed.length + moved.length }

/-! ## Data model of the metrics engine (`app/metrics.py`)

`datetime.now()` readings are passed in explicitly as `Timestamp` values:
`sec` is the absolute time in seconds, `hourKey` the
`strftime("%Y-%m-%d %H:00")` truncation and `iso` the `isoformat()`
rendering of the same instant. -/

structure Timestamp where
  sec : ℚ
  hourKey : String
  iso : String
deriving DecidableEq, Repr

/-- One value of the `self.jobs` dict (keys of the Python record that may
be absent become `Option` fields; the redundant `*_iso` copies are merged
into the `Timestamp`). -/
structure JobRecord where
  startTime : Option Timestamp
  endTime : Option Timestamp
  status : String
  latencySeconds : Option ℚ
deriving DecidableEq, Repr

/-- One value of the `self.hourly_stats` dict as created by `mark_end`. -/
structure Bucket where
  added : Nat
  removed : Nat
  moved : Nat
  jobs : Nat
deriving DecidableEq, Repr

/-- One entry of the `self.errors` list. -/
structure ErrorEvent where
  jobId : String
  timestamp : String
  type : String
deriving DecidableEq, Repr

/-- The `stats` sub-dict of a diff result passed to `mark_end`. -/
structure DiffStats where
  addedCount : Nat
  removedCount : Nat
  movedCount : Nat
deriving DecidableEq, Repr

/-- The mutable state of a `Metrics` instance (the psutil process handle
and the instance start time, used only for system metrics, are omitted). -/
structure MetricsState where
  jobs : List (String × JobRecord)
  latencies : List ℚ
  hourlyStats : List (String × Bucket)
  errors : List ErrorEvent
  errorCategories : List (String × Nat)
  activeRequests : Int
deriving DecidableEq, Repr

/-- A fresh `Metrics()` instance. -/
def initMetrics : MetricsState := ⟨[], [], [], [], [], 0⟩

/-- `Metrics.mark_start`. -/
def markStart (t : Timestamp) (jobId : String) (s : MetricsState) : MetricsState :=
  { s with
    jobs := alUpsert jobId ⟨some t, none, "running", none⟩ s.jobs
    activeRequests := s.activeRequests + 1 }

/-- The `mark_end` update of the current hourly bucket: create it with
zero counters if absent, then add the diff stats and bump the job count. -/
def bumpBucketStats (k : String) (st : DiffStats)
    (hs : List (String × Bucket)) : List (String × Bucket) :=
  let b := (alLookup hs k).getD ⟨0, 0, 0, 0⟩
  alUpsert k ⟨b.added + st.addedCount, b.removed + st.removedCount,
              b.moved + st.movedCount, b.jobs + 1⟩ hs

/-- `Metrics.mark_end` (the `result` argument is its `stats` sub-dict,
`none` when no result or no stats were supplied). -/
def markEnd (t : Timestamp) (jobId : String) (ok : Bool)
    (result : Option DiffStats) (s : MetricsState) : MetricsState :=
  let s1 := { s with activeRequests := max 0 (s.activeRequests - 1) }
  let s2 :=
    match alLookup s1.jobs jobId with
    | some job =>
      let base := { job with
                    endTime := some t
                    status := if ok then "success" else "failed" }
      match job.startTime with
      | some st =>
        let lat := t.sec - st.sec
        let s3 := { s1 with
                    jobs := alUpsert jobId { base with latencySeconds := some lat } s1.jobs }
        if ok then
          { s3 with
            latencies := s3.latencies ++ [lat]
            hourlyStats :=
              match result with
              | some r => bumpBucketStats t.hourKey r s3.hourlyStats
              | none => s3.hourlyStats }
        else s3
      | none => { s1 with jobs := alUpsert jobId base s1.jobs }
    | none =>
      { s1 with
        jobs := alUpsert jobId
          ⟨none, some t, if ok then "success" else "failed", none⟩ s1.jobs }
  if ok then s2
  else { s2 with errors := s2.errors ++ [⟨jobId, t.iso, "processing_error"⟩] }

/-- `Metrics.mark_error`. -/
def markError (t : Timestamp) (jobId errorType : String) (s : MetricsState) : MetricsState :=
  { s with
    errors := s.errors ++ [⟨jobId, t.iso, errorType⟩]
    errorCategories := alBump errorType s.errorCategories }

/-! ## Sorting and medians (Python `sorted` / `statistics`) -/

/-- Insert into an ascending list of rationals. -/
def insertQ (x : ℚ) : List ℚ → List ℚ
  | [] => [x]
  | y :: ys => if x ≤ y then x :: y :: ys else y :: insertQ x ys

/-- Ascending sort of rationals (Python `sorted`). -/
def sortQ (l : List ℚ) : List ℚ := l.foldr insertQ []

/-- Insert into an ascending list of strings. -/
def insertStr (x : String) : List String → List String
  | [] => [x]
  | y :: ys => if x < y then x :: y :: ys else y :: insertStr x ys

/-- Ascending sort of strings (Python `sorted` on hour keys). -/
def sortStr (l : List String) : List String := l.foldr insertStr []

/-- `statistics.median`: middle element of the sorted list for odd length,
mean of the two middle elements for even length. -/
def pyMedian (l : List ℚ) : ℚ :=
  if (sortQ l).length % 2 = 1 then (sortQ l).getD ((sortQ l).length / 2) 0
  else ((sortQ l).getD ((sortQ l).length / 2 - 1) 0 +
        (sortQ l).getD ((sortQ l).length / 2) 0) / 2

/-- Median of a list of natural counts, as a rational. -/
def pyMedianNat (l : List Nat) : ℚ := pyMedian (l.map (fun (n : Nat) => (n : ℚ)))

/-! ## Decimal formatting (Python `f"{x:.1f}"` / `f"{x:.0f}"`)

Python formats the rounded value with round-half-to-even; the embedding
applies that rule to the exact rational. -/

/-- Round half to even. -/
def roundHalfEven (q : ℚ) : ℤ :=
  let f := ⌊q⌋
  let r := q - f
  if r < 1 / 2 then f
  else if r > 1 / 2 then f + 1
  else if f % 2 = 0 then f else f + 1

/-- Python `f"{q:.0f}"`. -/
def fmt0 (q : ℚ) : String := toString (roundHalfEven q)

/-- Digits of a nonnegative number of tenths, as "w.d". -/
def fmt1OfTenths (n : ℤ) : String := toString (n / 10) ++ "." ++ toString (n % 10)

/-- Python `f"{q:.1f}"`. -/
def fmt1 (q : ℚ) : String :=
  let n := roundHalfEven (q * 10)
  if n < 0 then "-" ++ fmt1OfTenths (-n) else fmt1OfTenths n

/-! ## Derived metrics (`calculate_percentiles`, `get_success_rate`) -/

/-- The dict returned by `calculate_percentiles`: the `min`, `max` and
`mean` keys are absent when there are no recorded latencies. -/
structure Percentiles where
  p50 : ℚ
  p95 : ℚ
  p99 : ℚ
  minV : Option ℚ
  maxV : Option ℚ
  meanV : Option ℚ
deriving DecidableEq, Repr

/-- `Metrics.calculate_percentiles`: nearest-rank indexing of the sorted
latency list at `int(n * q)` (the float products are embedded as exact
rationals, so the index is `⌊n * q⌋`).  `min`/`max` of the nonempty sorted
list are its first and last elements. -/
def calculatePercentiles (latencies : List ℚ) : Percentiles :=
  if latencies.length = 0 then ⟨0, 0, 0, none, none, none⟩
  else
    let sorted := sortQ latencies
    let n := sorted.length
    ⟨sorted.getD (n * 50 / 100) 0,
     sorted.getD (n * 95 / 100) 0,
     sorted.getD (n * 99 / 100) 0,
     some (sorted.headD 0),
     some (sorted.getLastD 0),
     some (sorted.sum / n)⟩

/-- The dict returned by `get_success_rate` (`rate` is the percentage). -/
structure SuccessStats where
  rate : ℚ
  total : Nat
  successful : Nat
  failed : Nat
deriving DecidableEq, Repr

/-- Number of tracked jobs whose `status` is `st`. -/
def countStatus (s : MetricsState) (st : String) : Nat :=
  (s.jobs.filter (fun p => p.2.status = st)).length

/-- `Metrics.get_success_rate`. -/
def getSuccessRate (s : MetricsState) : SuccessStats :=
  if s.jobs.length = 0 then ⟨0, 0, 0, 0⟩
  else
    let successful := countStatus s "success"
    let failed := countStatus s "failed"
    let total := s.jobs.length
    ⟨if total > 0 then (successful : ℚ) / total * 100 else 0,
     total, successful, failed⟩

/-! ## Anomaly detection (`Metrics.detect_anomalies`)

The four checks run in sequence and each appends at most one warning;
they are embedded as one function per rule, concatenated in source
order. -/

/-- The failure-rate warning message. -/
def failureMsg (failed total : Nat) : String :=
  "High failure rate: " ++ toString failed ++ " of " ++ toString total ++
  " jobs failed (" ++ fmt1 ((failed : ℚ) / total * 100) ++ "%)"

/-- First check of `detect_anomalies`: high failure rate. -/
def failureRule (s : MetricsState) : List String :=
  let st := getSuccessRate s
  if st.total ≥ 5 ∧ st.failed > 0 then
    let rate := (st.failed : ℚ) / st.total * 100
    if rate > 10 then [failureMsg st.failed st.total] else []
  else []

/-- Total change count of one bucket. -/
def bucketTotal (b : Bucket) : Nat := b.added + b.removed + b.moved

/-- The per-bucket total change counts in ascending hour-key order
(`all_totals` in the source). -/
def bucketTotalsSorted (s : MetricsState) : List Nat :=
  (sortStr (s.hourlyStats.map (fun p => p.1))).map
    (fun h => bucketTotal ((alLookup s.hourlyStats h).getD ⟨0, 0, 0, 0⟩))

/-- The spike warning message. -/
def spikeMsg (recentTotal : Nat) (medianChanges : ℚ) : String :=
  "10x spike in changes detected: " ++ toString recentTotal ++
  " changes vs median " ++ fmt0 medianChanges

/-- `baseline_totals` of the spike check: all totals except the last,
unless at most two buckets exist. -/
def spikeBaselineTotals (s : MetricsState) : List Nat :=
  if (bucketTotalsSorted s).length > 2 then (bucketTotalsSorted s).dropLast
  else bucketTotalsSorted s

/-- `median_changes` of the spike check (0 when the baseline is empty). -/
def spikeMedianChanges (s : MetricsState) : ℚ :=
  if spikeBaselineTotals s ≠ [] then pyMedianNat (spikeBaselineTotals s) else 0

/-- `threshold` of the spike check. -/
def spikeThresholdCode (s : MetricsState) : ℚ :=
  if spikeMedianChanges s > 0 then max (spikeMedianChanges s * 10) 40 else 40

/-- Second check of `detect_anomalies`: spike in hourly changes (the
source's local variables `all_totals`, `baseline_totals`,
`median_changes`, `recent_total` and `threshold` are the named
definitions above). -/
def spikeRule (s : MetricsState) : List String :=
  if s.hourlyStats.length ≥ 1 then
    if (bucketTotalsSorted s).length ≥ 2 then
      if ((bucketTotalsSorted s).getLastD 0 : ℚ) > spikeThresholdCode s
      then [spikeMsg ((bucketTotalsSorted s).getLastD 0) (spikeMedianChanges s)]
      else []
    else []
  else []

/-- The missing-data warning message. -/
def missingMsg (count : Nat) (percentage : ℚ) : String :=
  "High rate of missing data: " ++ toString count ++ " jobs (" ++
  fmt1 percentage ++ "%)"

/-- Third check of `detect_anomalies`: high rate of `missing_data` errors
(the error counts are recomputed from the event log, and the denominator
is the `total` of `get_success_rate`). -/
def missingRule (s : MetricsState) : List String :=
  let count := (s.errors.filter (fun e => e.type = "missing_data")).length
  let total := (getSuccessRate s).total
  if count > 0 then
    if total > 0 then
      let percentage := (count : ℚ) / total * 100
      if percentage > 5 then [missingMsg count percentage] else []
    else []
  else []

/-- The staleness warning message. -/
def staleMsg (gapHours : ℚ) : String :=
  "No job completions in last " ++ fmt1 gapHours ++ " hours"

/-- Fourth check of `detect_anomalies`: no completions in the last hour
while job history exists. -/
def staleRule (now : Timestamp) (s : MetricsState) : List String :=
  let recentJobs := s.jobs.filter
    (fun p =>
      match p.2.endTime with
      | some e => decide (now.sec - e.sec < 3600)
      | none => false)
  if recentJobs.length = 0 ∧ s.jobs.length > 0 then
    let lastJobTimes := s.jobs.filterMap (fun p => p.2.endTime.map (fun e => e.sec))
    match lastJobTimes with
    | [] => []
    | t :: ts =>
      let lastTime := ts.foldl max t
      let gapHours := (now.sec - lastTime) / 3600
      if gapHours > 1 then [staleMsg gapHours] else []
  else []

/-- `Metrics.detect_anomalies`. -/
def detectAnomalies (now : Timestamp) (s : MetricsState) : List String :=
  failureRule s ++ spikeRule s ++ missingRule s ++ staleRule now s

/-- The fields of `Metrics.snapshot` relevant to the core claims
(hourly stats, per-job views, error logs, system metrics and change
statistics are carried by the state unchanged and are omitted here). -/
structure Snapshot where
  totalJobs : Nat
  successRate : ℚ
  latencyP50 : ℚ
  latencyP95 : ℚ
  latencyP99 : ℚ
  latencyMean : ℚ
  latencyMin : ℚ
  latencyMax : ℚ
  errorCount : Nat
  anomalies : List String
deriving DecidableEq, Repr

/-- `Metrics.snapshot`: the percentage success rate is divided by 100,
and the possibly-absent `mean`/`min`/`max` percentile keys are read with
a 0 default. -/
def snapshot (now : Timestamp) (s : MetricsState) : Snapshot :=
  let p := calculatePercentiles s.latencies
  let ss := getSuccessRate s
  { totalJobs := s.jobs.length
    successRate := ss.rate / 100
    latencyP50 := p.p50
    latencyP95 := p.p95
    latencyP99 := p.p99
    latencyMean := p.meanV.getD 0
    latencyMin := p.minV.getD 0
    latencyMax := p.maxV.getD 0
    errorCount := s.errors.length
    anomalies := detectAnomalies now s }

/-! ## Call sequences (for counter invariants) -/

/-- One external call to the metrics API. -/
inductive MOp
  | mstart (t : Timestamp) (id : String)
  | mend (t : Timestamp) (id : String) (ok : Bool) (res : Option DiffStats)
deriving Repr

/-- Apply one call. -/
def applyOp (s : MetricsState) : MOp → MetricsState
  | .mstart t id => markStart t id s
  | .mend t id ok r => markEnd t id ok r s

/-- Apply a sequence of calls in order. -/
def applyOps (ops : List MOp) (s : MetricsState) : MetricsState :=
  ops.foldl applyOp s

/-! ## Spec-side companion definitions

These follow the specification's words (not the source) and are compared
with the source-derived definitions in the theorems below. -/

/-- North/south label of the direction rule as worded in the spec:
present iff the y delta is nonzero, north for positive. -/
def specResolveNS (dy : Int) : String :=
  if dy > 0 then "north" else if dy < 0 then "south" else ""

/-- East/west label of the direction rule as worded in the spec:
present iff the x delta is nonzero, east for positive. -/
def specResolveEW (dx : Int) : String :=
  if dx > 0 then "east" else if dx < 0 then "west" else ""

/-- The direction resolver as worded in the spec: "in place" for a zero
displacement, otherwise the north/south label followed by the east/west
label. -/
def specResolve (dx dy : Int) : String :=
  if dx = 0 ∧ dy = 0 then "in place" else specResolveNS dy ++ specResolveEW dx

/-- Subtraction of possibly-absent coordinates: defined exactly when both
are present (used to state the claim that `delta = to - from` with no
defaulting). -/
def optSub : Option Int → Option Int → Option Int
  | some x, some y => some (x - y)
  | _, _ => none

/-- The baseline bucket totals of the spike rule as worded in the spec:
all buckets except the most recent, except that with exactly two buckets
both are used. -/
def spikeBaseline (s : MetricsState) : List Nat :=
  if (bucketTotalsSorted s).length = 2 then bucketTotalsSorted s
  else (bucketTotalsSorted s).dropLast

/-- Median of the spike baseline. -/
def spikeBaselineMedian (s : MetricsState) : ℚ := pyMedianNat (spikeBaseline s)

/-- The spike threshold as worded in the spec: `max (10 * median) 40`. -/
def spikeThreshold (s : MetricsState) : ℚ := max (10 * spikeBaselineMedian s) 40

/-- Total change count of the most recent hourly bucket. -/
def recentBucketTotal (s : MetricsState) : Nat := (bucketTotalsSorted s).getLastD 0

/-- The current value of an hourly bucket, zero when absent. -/
def bucketAt (s : MetricsState) (k : String) : Bucket :=
  (alLookup s.hourlyStats k).getD ⟨0, 0, 0, 0⟩

/-- Number of completed (succeeded or failed) jobs. -/
def completedJobs (s : MetricsState) : Nat :=
  countStatus s "success" + countStatus s "failed"

/-! ## Concrete fixtures used by counterexamples and witnesses -/

namespace Fix

/-- A concrete clock reading. -/
def tA : Timestamp := ⟨0, "2024-01-01 10:00", "2024-01-01T10:00:00"⟩

/-- A later concrete clock reading (same hour). -/
def tB : Timestamp := ⟨5, "2024-01-01 10:00", "2024-01-01T10:00:05"⟩

/-- Object whose x coordinate is absent. -/
def objNoX : DrawingObject := ⟨some "A", some "door", none, some 1⟩

/-- The same object with x present. -/
def objWithX : DrawingObject := ⟨some "A", some "door", some 5, some 1⟩

/-- The moved record `diff [objNoX] [objWithX]` produces. -/
def movedNoX : MovedRecord :=
  ⟨"A", "door", none, some 1, some 5, some 1, 5, 0⟩

/-- One job started and completed successfully. -/
def oneSuccess : MetricsState :=
  markEnd tB "j1" true none (markStart tA "j1" initMetrics)

/-- Three successful and two failed completed jobs. -/
def threeTwo : MetricsState :=
  markEnd tB "f1" false none (markStart tA "f1" (
  markEnd tB "f0" false none (markStart tA "f0" (
  markEnd tB "s2" true none (markStart tA "s2" (
  markEnd tB "s1" true none (markStart tA "s1" (
  markEnd tB "s0" true none (markStart tA "s0" initMetrics)))))))))

/-- Five tracked jobs of which four are still running and one failed. -/
def oneFailedFourRunning : MetricsState :=
  markEnd tB "j1" false none (markStart tA "j5" (markStart tA "j4" (
    markStart tA "j3" (markStart tA "j2" (markStart tA "j1" initMetrics)))))

/-- Four completed jobs of which one failed. -/
def fourJobsOneFailed : MetricsState :=
  markEnd tB "j4" true none (markEnd tB "j3" true none (markEnd tB "j2" true none (
  markEnd tB "j1" false none (markStart tA "j4" (markStart tA "j3" (
    markStart tA "j2" (markStart tA "j1" initMetrics)))))))

/-- A diff stats record used to exercise duplicate end-marks. -/
def stats1 : DiffStats := ⟨2, 1, 3⟩

/-- One running job (start-marked only). -/
def oneRunning : MetricsState := markStart tA "j1" initMetrics

/-- The job record `oneRunning` stores for "j1". -/
def runningRecord : JobRecord := ⟨some tA, none, "running", none⟩

end Fix

/-! ## Association-list lemmas -/

theorem alLookup_alUpsert {α : Type} (k k' : String) (v : α) :
    ∀ l : List (String × α),
      alLookup (alUpsert k v l) k' = if k = k' then some v else alLookup l k' := by
  intro l
  induction l with
  | nil => simp [alUpsert, alLookup]
  | cons p rest ih =>
    obtain ⟨kh, vh⟩ := p
    simp only [alUpsert]
    by_cases hk : kh = k
    · rw [if_pos hk]
      subst hk
      by_cases hk' : kh = k' <;> simp [alLookup, hk']
    · rw [if_neg hk]
      by_cases hk' : kh = k'
      · have hne : k ≠ k' := by rw [← hk']; exact fun h => hk h.symm
        simp [alLookup, hk', hne]
      · simp [alLookup, hk', ih]

theorem alLookup_eq_some_of_mem {α : Type} {l : List (String × α)} {k : String} {v : α}
    (hnd : (l.map Prod.fst).Nodup) (hm : (k, v) ∈ l) : alLookup l k = some v := by
  induction l with
  | nil => cases hm
  | cons p rest ih =>
    obtain ⟨kh, vh⟩ := p
    rcases List.mem_cons.mp hm with heq | hmem
    · cases heq; simp [alLookup]
    · have hk : kh ≠ k := by
        intro h; subst h
        exact (List.nodup_cons.mp hnd).1 (List.mem_map.mpr ⟨(kh, v), hmem, rfl⟩)
      simp [alLookup, hk, ih (List.nodup_cons.mp hnd).2 hmem]

theorem mem_of_alLookup_eq_some {α : Type} {l : List (String × α)} {k : String} {v : α}
    (h : alLookup l k = some v) : (k, v) ∈ l := by
  induction l with
  | nil => simp [alLookup] at h
  | cons p rest ih =>
    obtain ⟨kh, vh⟩ := p
    by_cases hk : kh = k
    · subst hk
      simp [alLookup] at h
      simp [h]
    · simp [alLookup, hk] at h
      exact List.mem_cons_of_mem _ (ih h)

theorem alLookup_eq_none_iff {α : Type} (l : List (String × α)) (k : String) :
    alLookup l k = none ↔ k ∉ l.map Prod.fst := by
  induction l with
  | nil => simp [alLookup]
  | cons p rest ih =>
    obtain ⟨kh, vh⟩ := p
    by_cases hk : kh = k
    · subst hk; simp [alLookup]
    · have hne : k ≠ kh := fun h => hk h.symm
      simp [alLookup, hk, ih, hne]

theorem alUpsert_map_fst {α : Type} (k : String) (v : α) :
    ∀ l : List (String × α),
      (alUpsert k v l).map Prod.fst =
        if alHasKey l k then l.map Prod.fst else l.map Prod.fst ++ [k] := by
  intro l
  induction l with
  | nil => simp [alUpsert, alHasKey, alLookup]
  | cons p rest ih =>
    obtain ⟨kh, vh⟩ := p
    by_cases hk : kh = k
    · subst hk; simp [alUpsert, alHasKey, alLookup]
    · simp only [alUpsert, if_neg hk, alHasKey, alLookup, List.map_cons]
      simp only [alHasKey] at ih
      rw [ih]
      by_cases hs : (alLookup rest k).isSome
      · simp [hs]
      · simp [hs]

theorem alUpsert_keysNodup {α : Type} {l : List (String × α)} (k : String) (v : α)
    (hnd : (l.map Prod.fst).Nodup) : ((alUpsert k v l).map Prod.fst).Nodup := by
  rw [alUpsert_map_fst]
  by_cases h : alHasKey l k
  · simpa [h]
  · rw [if_neg h]
    have hk : k ∉ l.map Prod.fst := by
      have : alLookup l k = none := by
        simpa [alHasKey, Option.not_isSome_iff_eq_none] using h
      exact (alLookup_eq_none_iff l k).mp this
    simp [List.nodup_append, hnd, hk]

theorem mem_alUpsert {α : Type} {p : String × α} (k : String) (v : α) :
    ∀ {l : List (String × α)}, p ∈ alUpsert k v l → p = (k, v) ∨ p ∈ l := by
  intro l
  induction l with
  | nil => intro h; simpa [alUpsert] using h
  | cons q rest ih =>
    obtain ⟨kh, vh⟩ := q
    by_cases hk : kh = k
    · subst hk
      intro h
      rcases List.mem_cons.mp (by simpa [alUpsert] using h) with h1 | h1
      · exact Or.inl h1
      · exact Or.inr (List.mem_cons_of_mem _ h1)
    · intro h
      rcases List.mem_cons.mp (by simpa [alUpsert, hk] using h) with h1 | h1
      · exact Or.inr (by simp [h1])
      · rcases ih h1 with h2 | h2
        · exact Or.inl h2
        · exact Or.inr (List.mem_cons_of_mem _ h2)

theorem alUpsert_length_of_found {α : Type} {l : List (String × α)} {k : String} {v' : α}
    (h : alLookup l k = some v') (v : α) : (alUpsert k v l).length = l.length := by
  induction l with
  | nil => simp [alLookup] at h
  | cons p rest ih =>
    obtain ⟨kh, vh⟩ := p
    by_cases hk : kh = k
    · subst hk; simp [alUpsert]
    · simp only [alLookup, if_neg hk] at h
      simp [alUpsert, hk, ih h]

/-! ## Index lemmas (`buildIndex`) -/

theorem buildIndex_invariant (objs : List DrawingObject) :
    ∀ acc : List (String × DrawingObject),
      (acc.map Prod.fst).Nodup → (∀ p ∈ acc, p.2.id = some p.1) →
      (((objs.foldl
          (fun acc o => match o.id with
            | some k => alUpsert k o acc
            | none => acc) acc).map Prod.fst).Nodup ∧
       ∀ p ∈ objs.foldl
          (fun acc o => match o.id with
            | some k => alUpsert k o acc
            | none => acc) acc, p.2.id = some p.1) := by
  induction objs with
  | nil => intro acc h1 h2; exact ⟨h1, h2⟩
  | cons o rest ih =>
    intro acc h1 h2
    simp only [List.foldl_cons]
    rcases ho : o.id with _ | k
    · exact ih acc h1 h2
    · refine ih (alUpsert k o acc) (alUpsert_keysNodup k o h1) ?_
      intro p hp
      rcases mem_alUpsert k o hp with h | h
      · subst h; exact ho
      · exact h2 p h

theorem buildIndex_keysNodup (objs : List DrawingObject) :
    ((buildIndex objs).map Prod.fst).Nodup :=
  (buildIndex_invariant objs [] (by simp) (by simp)).1

theorem mem_buildIndex_id {objs : List DrawingObject} {p : String × DrawingObject}
    (hp : p ∈ buildIndex objs) : p.2.id = some p.1 :=
  (buildIndex_invariant objs [] (by simp) (by simp)).2 p hp

/-! ## Direction resolver -/

theorem getDirection_eq_specResolve (dx dy : Int) :
    getDirection dx dy = specResolve dx dy := by
  unfold getDirection specResolve specResolveNS specResolveEW
  simp only [gt_iff_lt, abs_pos]
  split_ifs <;> first | rfl | decide | omega | simp_all

theorem getDirection_mem_range (dx dy : Int) :
    getDirection dx dy ∈ (["in place", "north", "south", "east", "west",
      "northeast", "northwest", "southeast", "southwest"] : List String) := by
  rw [getDirection_eq_specResolve]
  unfold specResolve specResolveNS specResolveEW
  split_ifs <;> first | decide | omega

/-- Claim C9: the direction resolver is a pure total function equal to the
spec's rule (north/south label iff the y delta is nonzero, then east/west
label iff the x delta is nonzero, "in place" for zero displacement), and
matches the five quoted examples. -/
theorem claim_c9_direction_resolver :
    (∀ dx dy : Int, getDirection dx dy = specResolve dx dy) ∧
    getDirection 0 0 = "in place" ∧
    getDirection 5 0 = "east" ∧
    getDirection 0 5 = "north" ∧
    getDirection 3 4 = "northeast" ∧
    getDirection (-3) (-4) = "southwest" :=
  ⟨getDirection_eq_specResolve, by decide, by decide, by decide, by decide, by decide⟩

/-! ## Active-request counter -/

theorem markEnd_activeRequests (t : Timestamp) (id : String) (ok : Bool)
    (r : Option DiffStats) (s : MetricsState) :
    (markEnd t id ok r s).activeRequests = max 0 (s.activeRequests - 1) := by
  unfold markEnd
  dsimp only
  rcases alLookup s.jobs id with _ | job <;> dsimp only
  · cases ok <;> rfl
  · rcases job.startTime with _ | st <;> dsimp only <;> cases ok <;>
      first | rfl | (rcases r with _ | rr <;> rfl)

/-- Claim C3, counterexample: after a first start-mark, job "j1" is in the
running state with active counter 1; a second start-mark for the same job
increments the counter again (to 2) instead of leaving it unchanged. -/
theorem claim_c3_counterexample :
    alLookup Fix.oneRunning.jobs "j1" = some Fix.runningRecord ∧
    Fix.runningRecord.status = "running" ∧
    Fix.oneRunning.activeRequests = 1 ∧
    (markStart Fix.tB "j1" Fix.oneRunning).activeRequests = 2 := by
  decide

/-- Claim C3 as amended: `mark_start` is not idempotent for the active
counter — every invocation, including one for an already-running job,
increments it by one — while `mark_end` saturates it at zero, so the
counter stays non-negative under every sequence of mark_start/mark_end
calls. -/
theorem claim_c3_active_counter :
    (∀ (t : Timestamp) (id : String) (s : MetricsState),
       (markStart t id s).activeRequests = s.activeRequests + 1) ∧
    (∀ (t : Timestamp) (id : String) (ok : Bool) (r : Option DiffStats) (s : MetricsState),
       (markEnd t id ok r s).activeRequests = max 0 (s.activeRequests - 1)) ∧
    (∀ ops : List MOp, 0 ≤ (applyOps ops initMetrics).activeRequests) := by
  refine ⟨fun t id s => rfl, markEnd_activeRequests, ?_⟩
  have key : ∀ (ops : List MOp) (s : MetricsState),
      0 ≤ s.activeRequests → 0 ≤ (applyOps ops s).activeRequests := by
    intro ops
    induction ops with
    | nil => intro s h; exact h
    | cons op rest ih =>
      intro s h
      refine ih (applyOp s op) ?_
      cases op with
      | mstart t id =>
        have : (markStart t id s).activeRequests = s.activeRequests + 1 := rfl
        simp only [applyOp, this]
        omega
      | mend t id ok r =>
        simp only [applyOp, markEnd_activeRequests]
        omega
  intro ops
  exact key ops initMetrics (by norm_num [initMetrics])

/-! ## Success rate (claim C4) -/

theorem snapshot_successRate (now : Timestamp) (s : MetricsState) :
    (snapshot now s).successRate =
      if s.jobs.length = 0 then 0
      else (countStatus s "success" : ℚ) / s.jobs.length := by
  unfold snapshot getSuccessRate
  dsimp only
  by_cases h : s.jobs.length = 0
  · simp [h]
  · rw [if_neg h, if_neg h]
    dsimp only
    rw [if_pos (Nat.pos_of_ne_zero h)]
    exact mul_div_cancel_right₀ _ (by norm_num)

/-- Claim C4: the snapshot's success rate is the number of jobs with
status "success" divided by the number of tracked jobs (0 when no jobs
are tracked); after one start/end(ok) cycle it is 1 with one total job,
and after 3 successful and 2 failed completions it is 3/5. -/
theorem claim_c4_success_rate :
    (∀ (now : Timestamp) (s : MetricsState),
       (snapshot now s).successRate =
         if s.jobs.length = 0 then 0
         else (countStatus s "success" : ℚ) / s.jobs.length) ∧
    (snapshot Fix.tB Fix.oneSuccess).successRate = 1 ∧
    (snapshot Fix.tB Fix.oneSuccess).totalJobs = 1 ∧
    (snapshot Fix.tB Fix.threeTwo).successRate = 3 / 5 := by
  refine ⟨snapshot_successRate, ?_, by decide, ?_⟩
  · rw [snapshot_successRate]
    rw [show countStatus Fix.oneSuccess "success" = 1 from rfl,
        show Fix.oneSuccess.jobs.length = 1 from rfl]
    norm_num
  · rw [snapshot_successRate]
    rw [show countStatus Fix.threeTwo "success" = 3 from rfl,
        show Fix.threeTwo.jobs.length = 5 from rfl]
    norm_num

/-! ## End-mark of a started job (shared by claims C5 and C10) -/

theorem markEnd_found_start (t : Timestamp) (id : String) (res : Option DiffStats)
    (s : MetricsState) (job : JobRecord) (st : Timestamp)
    (hj : alLookup s.jobs id = some job) (hst : job.startTime = some st) :
    markEnd t id true res s =
      { s with
        activeRequests := max 0 (s.activeRequests - 1)
        jobs := alUpsert id ⟨some st, some t, "success", some (t.sec - st.sec)⟩ s.jobs
        latencies := s.latencies ++ [t.sec - st.sec]
        hourlyStats :=
          match res with
          | some r => bumpBucketStats t.hourKey r s.hourlyStats
          | none => s.hourlyStats } := by
  unfold markEnd
  dsimp only
  rw [hj]
  dsimp only
  rw [hst]
  simp

theorem markEnd_failed_latencies (t : Timestamp) (id : String)
    (res : Option DiffStats) (s : MetricsState) :
    (markEnd t id false res s).latencies = s.latencies := by
  unfold markEnd
  dsimp only
  rcases alLookup s.jobs id with _ | job <;> dsimp only
  · rfl
  · rcases job.startTime with _ | st <;> rfl

/-! ## Percentiles (claim C5) -/

theorem calculatePercentiles_single (x : ℚ) :
    calculatePercentiles [x] = ⟨x, x, x, some x, some x, some x⟩ := by
  unfold calculatePercentiles
  simp [sortQ, insertQ]

/-- Claim C5: percentiles read the sorted successful-job latencies at the
floor-indexed nearest rank; with no recorded latencies every reported
latency figure is 0 (and no failure occurs, the function being total),
with exactly one recorded latency p50 = p95 = p99 = that latency;
a failed end-mark records no latency, and a successful end-mark of a
started job appends exactly the recomputed latency. -/
theorem claim_c5_percentiles :
    (calculatePercentiles [] = ⟨0, 0, 0, none, none, none⟩) ∧
    (∀ (now : Timestamp) (s : MetricsState), s.latencies = [] →
       (snapshot now s).latencyP50 = 0 ∧ (snapshot now s).latencyP95 = 0 ∧
       (snapshot now s).latencyP99 = 0 ∧ (snapshot now s).latencyMean = 0 ∧
       (snapshot now s).latencyMin = 0 ∧ (snapshot now s).latencyMax = 0) ∧
    (∀ x : ℚ, calculatePercentiles [x] = ⟨x, x, x, some x, some x, some x⟩) ∧
    (∀ (t : Timestamp) (id : String) (res : Option DiffStats) (s : MetricsState),
       (markEnd t id false res s).latencies = s.latencies) ∧
    (∀ (t : Timestamp) (id : String) (res : Option DiffStats) (s : MetricsState)
       (job : JobRecord) (st : Timestamp),
       alLookup s.jobs id = some job → job.startTime = some st →
       (markEnd t id true res s).latencies = s.latencies ++ [t.sec - st.sec]) := by
  refine ⟨rfl, ?_, calculatePercentiles_single, markEnd_failed_latencies, ?_⟩
  · intro now s h
    unfold snapshot
    rw [h]
    exact ⟨rfl, rfl, rfl, rfl, rfl, rfl⟩
  · intro t id res s job st hj hst
    rw [markEnd_found_start t id res s job st hj hst]

/-- Witness for claim C5's conditional conjuncts, at the empty aggregator
and at a concrete started job. -/
theorem claim_c5_percentiles_witness :
    (snapshot Fix.tA initMetrics).latencyP50 = 0 ∧
    (markEnd Fix.tB "j1" true none Fix.oneRunning).latencies =
      Fix.oneRunning.latencies ++ [Fix.tB.sec - Fix.tA.sec] :=
  ⟨(claim_c5_percentiles.2.1 Fix.tA initMetrics rfl).1,
   claim_c5_percentiles.2.2.2.2 Fix.tB "j1" none Fix.oneRunning
     Fix.runningRecord Fix.tA (by decide) rfl⟩

/-! ## Duplicate end-marks (claim C10) -/

theorem alLookup_bumpBucketStats (k : String) (r : DiffStats)
    (hs : List (String × Bucket)) :
    alLookup (bumpBucketStats k r hs) k =
      some ⟨((alLookup hs k).getD ⟨0, 0, 0, 0⟩).added + r.addedCount,
            ((alLookup hs k).getD ⟨0, 0, 0, 0⟩).removed + r.removedCount,
            ((alLookup hs k).getD ⟨0, 0, 0, 0⟩).moved + r.movedCount,
            ((alLookup hs k).getD ⟨0, 0, 0, 0⟩).jobs + 1⟩ := by
  unfold bumpBucketStats
  rw [alLookup_alUpsert]
  simp

theorem c10_aux (s : MetricsState) (t : Timestamp) (id : String) (r : DiffStats)
    (job : JobRecord) (st : Timestamp)
    (hj : alLookup s.jobs id = some job) (hst : job.startTime = some st) :
    ∀ k : Nat,
      (∃ job', alLookup ((markEnd t id true (some r))^[k] s).jobs id = some job' ∧
         job'.startTime = some st) ∧
      ((markEnd t id true (some r))^[k] s).latencies
        = s.latencies ++ List.replicate k (t.sec - st.sec) ∧
      bucketAt ((markEnd t id true (some r))^[k] s) t.hourKey =
        ⟨(bucketAt s t.hourKey).added + k * r.addedCount,
         (bucketAt s t.hourKey).removed + k * r.removedCount,
         (bucketAt s t.hourKey).moved + k * r.movedCount,
         (bucketAt s t.hourKey).jobs + k⟩ ∧
      ((markEnd t id true (some r))^[k] s).jobs.length = s.jobs.length := by
  intro k
  induction k with
  | zero => exact ⟨⟨job, hj, hst⟩, by simp, by simp, rfl⟩
  | succ n ih =>
    obtain ⟨⟨job', hj', hst'⟩, hlat, hbuck, hlen⟩ := ih
    rw [Function.iterate_succ_apply']
    rw [markEnd_found_start t id (some r) _ job' st hj' hst']
    refine ⟨⟨⟨some st, some t, "success", some (t.sec - st.sec)⟩, ?_, rfl⟩, ?_, ?_, ?_⟩
    · dsimp only
      rw [alLookup_alUpsert]
      simp
    · dsimp only
      rw [hlat, List.replicate_succ' n, List.append_assoc]
    · unfold bucketAt at hbuck ⊢
      dsimp only
      rw [alLookup_bumpBucketStats, hbuck]
      simp only [Option.getD_some, Bucket.mk.injEq]
      exact ⟨by ring, by ring, by ring, by omega⟩
    · dsimp only
      rw [alUpsert_length_of_found hj', hlen]

/-- Claim C10: each additional successful end-mark of a job with a
recorded start time appends the recomputed latency to the latency list
again and re-adds the result's change counts (and job count) to the
current hourly bucket, so k end-marks contribute k latency samples and
k-fold change totals, while the number of tracked job records stays
unchanged (the single record is merely overwritten). -/
theorem claim_c10_duplicate_end_marks (s : MetricsState) (t : Timestamp)
    (id : String) (r : DiffStats) (job : JobRecord) (st : Timestamp) (k : Nat)
    (hj : alLookup s.jobs id = some job) (hst : job.startTime = some st) :
    ((markEnd t id true (some r))^[k] s).latencies
      = s.latencies ++ List.replicate k (t.sec - st.sec) ∧
    bucketAt ((markEnd t id true (some r))^[k] s) t.hourKey =
      ⟨(bucketAt s t.hourKey).added + k * r.addedCount,
       (bucketAt s t.hourKey).removed + k * r.removedCount,
       (bucketAt s t.hourKey).moved + k * r.movedCount,
       (bucketAt s t.hourKey).jobs + k⟩ ∧
    ((markEnd t id true (some r))^[k] s).jobs.length = s.jobs.length :=
  (c10_aux s t id r job st hj hst k).2

/-- Witness for claim C10 at a concrete running job, end-marked twice. -/
theorem claim_c10_witness :
    ((markEnd Fix.tB "j1" true (some Fix.stats1))^[2] Fix.oneRunning).latencies
      = Fix.oneRunning.latencies ++ List.replicate 2 (Fix.tB.sec - Fix.tA.sec) ∧
    bucketAt ((markEnd Fix.tB "j1" true (some Fix.stats1))^[2] Fix.oneRunning)
        Fix.tB.hourKey =
      ⟨(bucketAt Fix.oneRunning Fix.tB.hourKey).added + 2 * Fix.stats1.addedCount,
       (bucketAt Fix.oneRunning Fix.tB.hourKey).removed + 2 * Fix.stats1.removedCount,
       (bucketAt Fix.oneRunning Fix.tB.hourKey).moved + 2 * Fix.stats1.movedCount,
       (bucketAt Fix.oneRunning Fix.tB.hourKey).jobs + 2⟩ ∧
    ((markEnd Fix.tB "j1" true (some Fix.stats1))^[2] Fix.oneRunning).jobs.length
      = Fix.oneRunning.jobs.length :=
  claim_c10_duplicate_end_marks Fix.oneRunning Fix.tB "j1" Fix.stats1
    Fix.runningRecord Fix.tA 2 (by decide) rfl

/-! ## Moved-record deltas (claim C2) -/

/-- Claim C2, counterexample: when the x coordinate is absent from
snapshot A but present in B, `diff` still emits a moved record, whose
`from.x` is null while its delta was computed with the absent coordinate
defaulted to 0 — so `delta.x = to.x - from.x` does not hold for all
inputs. -/
theorem claim_c2_counterexample :
    ¬ (∀ m ∈ (diff [Fix.objNoX] [Fix.objWithX]).moved,
        optSub m.toX m.fromX = some m.deltaX ∧
        optSub m.toY m.fromY = some m.deltaY) := by
  decide

/-- Claim C2 as amended: for every moved record, the delta equals the
destination minus the source coordinate with each absent coordinate
defaulted to 0 (never normalized or clamped otherwise); in particular,
whenever a coordinate is present on both sides, `delta = to - from`
exactly. -/
theorem claim_c2_moved_deltas (a b : List DrawingObject) (m : MovedRecord)
    (hm : m ∈ (diff a b).moved) :
    m.deltaX = m.toX.getD 0 - m.fromX.getD 0 ∧
    m.deltaY = m.toY.getD 0 - m.fromY.getD 0 ∧
    (m.fromX.isSome → m.toX.isSome → optSub m.toX m.fromX = some m.deltaX) ∧
    (m.fromY.isSome → m.toY.isSome → optSub m.toY m.fromY = some m.deltaY) := by
  obtain ⟨k0, ov, hp, hfp⟩ : ∃ k0 ov, (k0, ov) ∈ buildIndex a ∧
      (match alLookup (buildIndex b) k0 with
        | none => none
        | some ob =>
          if ¬ov.x = ob.x ∨ ¬ov.y = ob.y then
            some { id := k0, type := ob.type.getD "unknown",
                   fromX := ov.x, fromY := ov.y, toX := ob.x, toY := ob.y,
                   deltaX := ob.x.getD 0 - ov.x.getD 0,
                   deltaY := ob.y.getD 0 - ov.y.getD 0 }
          else none) = some m := by
    simpa [diff] using hm
  rcases hL : alLookup (buildIndex b) k0 with _ | ob
  · rw [hL] at hfp
    cases hfp
  · rw [hL] at hfp
    dsimp only at hfp
    by_cases hc : ¬ov.x = ob.x ∨ ¬ov.y = ob.y
    · rw [if_pos hc] at hfp
      injection hfp with hfp
      subst hfp
      refine ⟨rfl, rfl, ?_, ?_⟩
      · rcases ov.x with _ | xa <;> rcases ob.x with _ | xb <;>
          intro h1 h2 <;> simp_all [optSub]
      · rcases ov.y with _ | ya <;> rcases ob.y with _ | yb <;>
          intro h1 h2 <;> simp_all [optSub]
    · rw [if_neg hc] at hfp
      cases hfp

/-- Witness for claim C2 as amended, at the concrete absent-x input. -/
theorem claim_c2_witness :
    Fix.movedNoX ∈ (diff [Fix.objNoX] [Fix.objWithX]).moved ∧
    (Fix.movedNoX.deltaX = Fix.movedNoX.toX.getD 0 - Fix.movedNoX.fromX.getD 0 ∧
     Fix.movedNoX.deltaY = Fix.movedNoX.toY.getD 0 - Fix.movedNoX.fromY.getD 0 ∧
     (Fix.movedNoX.fromX.isSome → Fix.movedNoX.toX.isSome →
        optSub Fix.movedNoX.toX Fix.movedNoX.fromX = some Fix.movedNoX.deltaX) ∧
     (Fix.movedNoX.fromY.isSome → Fix.movedNoX.toY.isSome →
        optSub Fix.movedNoX.toY Fix.movedNoX.fromY = some Fix.movedNoX.deltaY)) :=
  ⟨by decide,
   claim_c2_moved_deltas [Fix.objNoX] [Fix.objWithX] Fix.movedNoX (by decide)⟩

/-! ## Failure-rate rule (claim C6) -/

theorem failureRule_eq (s : MetricsState) :
    failureRule s =
      if s.jobs.length ≥ 5 ∧ (countStatus s "failed" : ℚ) / s.jobs.length > 1 / 10
      then [failureMsg (countStatus s "failed") s.jobs.length] else [] := by
  unfold failureRule getSuccessRate
  by_cases h0 : s.jobs.length = 0
  · rw [if_pos h0]
    dsimp only
    rw [if_neg (by omega), if_neg (by rw [h0]; rintro ⟨h5, _⟩; omega)]
  · rw [if_neg h0]
    dsimp only
    have hLpos : 0 < s.jobs.length := Nat.pos_of_ne_zero h0
    have hLq : (0 : ℚ) < s.jobs.length := by exact_mod_cast hLpos
    split_ifs with h1 h2 h3 h4 h5
    · rfl
    · refine absurd ⟨h1.1, ?_⟩ h3
      rw [gt_iff_lt] at h2 ⊢
      linarith
    · refine absurd ?_ h2
      have := h4.2
      rw [gt_iff_lt] at this ⊢
      linarith
    · rfl
    · exfalso
      apply h1
      refine ⟨h5.1, ?_⟩
      have hq : (1 : ℚ) / 10 * s.jobs.length < countStatus s "failed" :=
        (lt_div_iff hLq).mp h5.2
      have hFq : (0 : ℚ) < countStatus s "failed" :=
        lt_of_le_of_lt (by positivity) hq
      exact_mod_cast hFq
    · rfl

/-- Claim C6, counterexample: with five tracked jobs of which four are
still running and one failed, the code emits the failure-rate warning
(it divides by all tracked jobs), although only one job has completed —
under the claim's "at least 5 completed jobs" precondition no warning
may be emitted. -/
theorem claim_c6_counterexample :
    ¬ (failureRule Fix.oneFailedFourRunning ≠ [] ↔
       (completedJobs Fix.oneFailedFourRunning ≥ 5 ∧
        (countStatus Fix.oneFailedFourRunning "failed" : ℚ) /
          completedJobs Fix.oneFailedFourRunning > 1 / 10)) := by
  rw [failureRule_eq]
  rw [show countStatus Fix.oneFailedFourRunning "failed" = 1 from rfl,
      show Fix.oneFailedFourRunning.jobs.length = 5 from rfl,
      show completedJobs Fix.oneFailedFourRunning = 1 from rfl]
  rw [if_pos (by norm_num)]
  simp

/-- Claim C6 as amended: the detector's warning list starts with the
failure-rate check, which emits its warning (carrying the raw counts and
the percentage) iff there are at least 5 tracked jobs — running jobs
included — and failed/tracked exceeds 10%; in particular 1 failure among
4 completed jobs does not trigger it. -/
theorem claim_c6_failure_rate :
    (∀ (now : Timestamp) (s : MetricsState),
       detectAnomalies now s =
         failureRule s ++ spikeRule s ++ missingRule s ++ staleRule now s) ∧
    (∀ s : MetricsState, failureRule s =
       if s.jobs.length ≥ 5 ∧
          (countStatus s "failed" : ℚ) / s.jobs.length > 1 / 10
       then [failureMsg (countStatus s "failed") s.jobs.length] else []) ∧
    failureRule Fix.fourJobsOneFailed = [] :=
  ⟨fun _ _ => rfl, failureRule_eq, by decide⟩

/-! ## Spike rule (claim C7) -/

theorem insertStr_length (x : String) (l : List String) :
    (insertStr x l).length = l.length + 1 := by
  induction l with
  | nil => rfl
  | cons y ys ih =>
    unfold insertStr
    split_ifs <;> simp [ih]

theorem sortStr_length (l : List String) : (sortStr l).length = l.length := by
  induction l with
  | nil => rfl
  | cons x xs ih =>
    show (insertStr x (sortStr xs)).length = xs.length + 1
    rw [insertStr_length, ih]

theorem mem_insertQ (a x : ℚ) (l : List ℚ) :
    a ∈ insertQ x l ↔ a = x ∨ a ∈ l := by
  induction l with
  | nil => simp [insertQ]
  | cons y ys ih =>
    unfold insertQ
    split_ifs <;> simp [ih] <;> tauto

theorem mem_sortQ (a : ℚ) (l : List ℚ) : a ∈ sortQ l ↔ a ∈ l := by
  induction l with
  | nil => simp [sortQ]
  | cons x xs ih =>
    show a ∈ insertQ x (sortQ xs) ↔ _
    rw [mem_insertQ]
    simp [ih]

theorem getD_nonneg_of_forall {l : List ℚ} (h : ∀ x ∈ l, 0 ≤ x) (n : Nat) :
    0 ≤ l.getD n 0 := by
  by_cases hn : n < l.length
  · rw [List.getD_eq_getElem l 0 hn]
    exact h _ (List.getElem_mem hn)
  · rw [List.getD_eq_default l 0 (le_of_not_lt hn)]

theorem pyMedian_nonneg {l : List ℚ} (h : ∀ x ∈ l, 0 ≤ x) : 0 ≤ pyMedian l := by
  unfold pyMedian
  have hs : ∀ x ∈ sortQ l, 0 ≤ x := fun x hx => h x ((mem_sortQ x l).mp hx)
  split_ifs
  · exact getD_nonneg_of_forall hs _
  · exact div_nonneg
      (add_nonneg (getD_nonneg_of_forall hs _) (getD_nonneg_of_forall hs _))
      (by norm_num)

theorem pyMedianNat_nonneg (l : List Nat) : 0 ≤ pyMedianNat l := by
  unfold pyMedianNat
  apply pyMedian_nonneg
  intro x hx
  obtain ⟨n, hn, hx'⟩ := List.mem_map.mp hx
  rw [← hx']
  exact Nat.cast_nonneg n

/-- Claim C7: the spike warning is emitted exactly when there are at
least two hourly buckets and the most recent bucket's total change count
exceeds `max (10 * median) 40`, where the median is taken over all
buckets but the last — over both buckets when exactly two exist. -/
theorem claim_c7_spike_rule (s : MetricsState) :
    spikeRule s =
      if s.hourlyStats.length ≥ 2 ∧ (recentBucketTotal s : ℚ) > spikeThreshold s
      then [spikeMsg (recentBucketTotal s) (spikeBaselineMedian s)] else [] := by
  have hlen : (bucketTotalsSorted s).length = s.hourlyStats.length := by
    unfold bucketTotalsSorted
    rw [List.length_map, sortStr_length, List.length_map]
  unfold spikeRule recentBucketTotal
  by_cases h2 : s.hourlyStats.length ≥ 2
  · have hbase : spikeBaselineTotals s = spikeBaseline s := by
      unfold spikeBaselineTotals spikeBaseline
      by_cases h3 : (bucketTotalsSorted s).length = 2
      · rw [if_neg (by omega), if_pos h3]
      · rw [if_pos (by omega), if_neg h3]
    have hbne : spikeBaselineTotals s ≠ [] := by
      have h2' : (bucketTotalsSorted s).length ≥ 2 := by omega
      unfold spikeBaselineTotals
      split_ifs with h3
      · intro hnil
        have hh := congrArg List.length hnil
        rw [List.length_dropLast] at hh
        simp at hh
        omega
      · intro hnil
        rw [hnil] at h2'
        simp at h2'
    have hmedeq : spikeMedianChanges s = spikeBaselineMedian s := by
      unfold spikeMedianChanges spikeBaselineMedian
      rw [if_pos hbne, hbase]
    have hthr : spikeThresholdCode s = spikeThreshold s := by
      unfold spikeThresholdCode spikeThreshold
      rw [hmedeq]
      split_ifs with h4
      · rw [mul_comm]
      · have hz : spikeBaselineMedian s = 0 :=
          le_antisymm (not_lt.mp h4) (pyMedianNat_nonneg _)
        rw [hz, mul_zero]
        simp
    rw [if_pos (show s.hourlyStats.length ≥ 1 by omega),
        if_pos (show (bucketTotalsSorted s).length ≥ 2 by omega),
        hthr, hmedeq]
    by_cases h5 : ((bucketTotalsSorted s).getLastD 0 : ℚ) > spikeThreshold s
    · rw [if_pos h5, if_pos ⟨h2, h5⟩]
    · rw [if_neg h5, if_neg (fun hc => h5 hc.2)]
  · rw [if_neg (show ¬ (s.hourlyStats.length ≥ 2 ∧
        (((bucketTotalsSorted s).getLastD 0 : ℚ)) > spikeThreshold s) from
        fun hc => h2 hc.1)]
    by_cases h1 : s.hourlyStats.length ≥ 1
    · rw [if_pos h1, if_neg (show ¬ (bucketTotalsSorted s).length ≥ 2 by omega)]
    · rw [if_neg h1]

/-! ## Diff partition (claim C1) -/

theorem mem_diff_added {a b : List DrawingObject} {o : DrawingObject} :
    o ∈ (diff a b).added ↔
      ∃ k, o.id = some k ∧ alLookup (buildIndex b) k = some o ∧
           alLookup (buildIndex a) k = none := by
  constructor
  · intro h
    obtain ⟨p, hp, hfp⟩ := List.mem_filterMap.mp h
    by_cases hk : alHasKey (buildIndex a) p.1
    · rw [if_pos hk] at hfp
      cases hfp
    · rw [if_neg hk] at hfp
      injection hfp with hfp
      subst hfp
      refine ⟨p.1, mem_buildIndex_id hp, ?_, ?_⟩
      · exact alLookup_eq_some_of_mem (buildIndex_keysNodup b) hp
      · simpa [alHasKey, Option.not_isSome_iff_eq_none] using hk
  · rintro ⟨k, hid, hb, ha⟩
    apply List.mem_filterMap.mpr
    refine ⟨(k, o), mem_of_alLookup_eq_some hb, ?_⟩
    rw [if_neg (by simp [alHasKey, ha])]

theorem mem_diff_removed {a b : List DrawingObject} {o : DrawingObject} :
    o ∈ (diff a b).removed ↔
      ∃ k, o.id = some k ∧ alLookup (buildIndex a) k = some o ∧
           alLookup (buildIndex b) k = none := by
  constructor
  · intro h
    obtain ⟨p, hp, hfp⟩ := List.mem_filterMap.mp h
    by_cases hk : alHasKey (buildIndex b) p.1
    · rw [if_pos hk] at hfp
      cases hfp
    · rw [if_neg hk] at hfp
      injection hfp with hfp
      subst hfp
      refine ⟨p.1, mem_buildIndex_id hp, ?_, ?_⟩
      · exact alLookup_eq_some_of_mem (buildIndex_keysNodup a) hp
      · simpa [alHasKey, Option.not_isSome_iff_eq_none] using hk
  · rintro ⟨k, hid, ha, hb⟩
    apply List.mem_filterMap.mpr
    refine ⟨(k, o), mem_of_alLookup_eq_some ha, ?_⟩
    rw [if_neg (by simp [alHasKey, hb])]

theorem mem_diff_movedIds {a b : List DrawingObject} {k : String} :
    k ∈ (diff a b).moved.map (fun m => m.id) ↔
      ∃ oa ob, alLookup (buildIndex a) k = some oa ∧
               alLookup (buildIndex b) k = some ob ∧
               (oa.x ≠ ob.x ∨ oa.y ≠ ob.y) := by
  constructor
  · intro h
    obtain ⟨m, hm, hmid⟩ := List.mem_map.mp h
    obtain ⟨p, hp, hfp⟩ := List.mem_filterMap.mp hm
    rcases hL : alLookup (buildIndex b) p.1 with _ | ob
    · rw [hL] at hfp
      cases hfp
    · rw [hL] at hfp
      dsimp only at hfp
      by_cases hc : p.2.x ≠ ob.x ∨ p.2.y ≠ ob.y
      · rw [if_pos hc] at hfp
        injection hfp with hfp
        subst hfp
        have hk : p.1 = k := hmid
        subst hk
        exact ⟨p.2, ob, alLookup_eq_some_of_mem (buildIndex_keysNodup a) hp, hL, hc⟩
      · rw [if_neg hc] at hfp
        cases hfp
  · rintro ⟨oa, ob, ha, hb, hc⟩
    apply List.mem_map.mpr
    refine ⟨⟨k, ob.type.getD "unknown", oa.x, oa.y, ob.x, ob.y,
             ob.x.getD 0 - oa.x.getD 0, ob.y.getD 0 - oa.y.getD 0⟩, ?_, rfl⟩
    apply List.mem_filterMap.mpr
    refine ⟨(k, oa), mem_of_alLookup_eq_some ha, ?_⟩
    dsimp only
    rw [hb]
    dsimp only
    rw [if_pos hc]

/-- Claim C1: in `diff a b`, `added` is exactly the set of indexed
objects of `b` whose id is absent from `a`'s index, `removed` exactly
those of `a` absent from `b`'s index, every id in `moved` is present in
both indices with `x` or `y` differing (and conversely), and no object
id occurs in more than one of the three sequences. -/
theorem claim_c1_diff_partition (a b : List DrawingObject) :
    (∀ o, o ∈ (diff a b).added ↔
       ∃ k, o.id = some k ∧ alLookup (buildIndex b) k = some o ∧
            alLookup (buildIndex a) k = none) ∧
    (∀ o, o ∈ (diff a b).removed ↔
       ∃ k, o.id = some k ∧ alLookup (buildIndex a) k = some o ∧
            alLookup (buildIndex b) k = none) ∧
    (∀ k, k ∈ (diff a b).moved.map (fun m => m.id) ↔
       ∃ oa ob, alLookup (buildIndex a) k = some oa ∧
                alLookup (buildIndex b) k = some ob ∧
                (oa.x ≠ ob.x ∨ oa.y ≠ ob.y)) ∧
    ((diff a b).added.filterMap (fun o => o.id) ∩
       (diff a b).removed.filterMap (fun o => o.id)) = [] ∧
    ((diff a b).added.filterMap (fun o => o.id) ∩
       (diff a b).moved.map (fun m => m.id)) = [] ∧
    ((diff a b).removed.filterMap (fun o => o.id) ∩
       (diff a b).moved.map (fun m => m.id)) = [] := by
  refine ⟨fun o => mem_diff_added, fun o => mem_diff_removed,
          fun k => mem_diff_movedIds, ?_, ?_, ?_⟩
  · rw [List.inter_eq_nil_iff_disjoint]
    intro k hk1 hk2
    obtain ⟨o1, ho1, hid1⟩ := List.mem_filterMap.mp hk1
    obtain ⟨o2, ho2, hid2⟩ := List.mem_filterMap.mp hk2
    obtain ⟨k1, hk1', _, hanone⟩ := mem_diff_added.mp ho1
    obtain ⟨k2, hk2', hasome, _⟩ := mem_diff_removed.mp ho2
    rw [hid1] at hk1'
    rw [hid2] at hk2'
    cases hk1'
    cases hk2'
    rw [hanone] at hasome
    cases hasome
  · rw [List.inter_eq_nil_iff_disjoint]
    intro k hk1 hk2
    obtain ⟨o1, ho1, hid1⟩ := List.mem_filterMap.mp hk1
    obtain ⟨k1, hk1', _, hanone⟩ := mem_diff_added.mp ho1
    rw [hid1] at hk1'
    cases hk1'
    obtain ⟨oa, ob, hasome, _, _⟩ := mem_diff_movedIds.mp hk2
    rw [hanone] at hasome
    cases hasome
  · rw [List.inter_eq_nil_iff_disjoint]
    intro k hk1 hk2
    obtain ⟨o1, ho1, hid1⟩ := List.mem_filterMap.mp hk1
    obtain ⟨k1, hk1', _, hbnone⟩ := mem_diff_removed.mp ho1
    rw [hid1] at hk1'
    cases hk1'
    obtain ⟨oa, ob, _, hbsome, _⟩ := mem_diff_movedIds.mp hk2
    rw [hbnone] at hbsome
    cases hbsome

/-! ## Identical snapshots and the empty-summary literal (claim C8) -/

theorem suffix_mismatch {suf lit : List Char}
    (hne : lit.drop (lit.length - suf.length) ≠ suf) : ¬ suf <:+ lit := by
  rintro ⟨pre, hpre⟩
  apply hne
  have hlen : pre.length + suf.length = lit.length := by
    rw [← hpre, List.length_append]
  have hdrop : lit.drop pre.length = suf := by
    rw [← hpre]
    exact List.drop_left pre suf
  rw [show lit.length - suf.length = pre.length by omega, hdrop]

theorem pyJoin_cons_ne_nil (sep x : String) (l : List String) (hl : l ≠ []) :
    pyJoin sep (x :: l) = x ++ sep ++ pyJoin sep l := by
  cases l with
  | nil => exact absurd rfl hl
  | cons y ys => rfl

theorem pyJoin_append_last (sep : String) (xs : List String) (p : String) :
    ∃ pre : String, pyJoin sep (xs ++ [p]) = pre ++ p := by
  induction xs with
  | nil => exact ⟨"", by simp [pyJoin]⟩
  | cons x xs ih =>
    obtain ⟨pre, hpre⟩ := ih
    refine ⟨x ++ sep ++ pre, ?_⟩
    rw [List.cons_append, pyJoin_cons_ne_nil sep x (xs ++ [p]) (by simp), hpre]
    simp [String.append_assoc]

theorem summary_suffix (xs : List String) (B suf : String) :
    (suf ++ ".").data <:+ (pyJoin "; " (xs ++ [B ++ suf]) ++ ".").data := by
  obtain ⟨pre, hpre⟩ := pyJoin_append_last "; " xs (B ++ suf)
  rw [hpre]
  refine ⟨pre.data ++ B.data, ?_⟩
  simp [String.data_append, List.append_assoc]

theorem pyJoin_ne_literal {B suf : String} (xs : List String)
    (h : ("No changes detected.".data.drop
            ("No changes detected.".data.length - (suf ++ ".").data.length))
          ≠ (suf ++ ".").data) :
    pyJoin "; " (xs ++ [B ++ suf]) ++ "." ≠ "No changes detected." := by
  intro heq
  have hsuf := summary_suffix xs B suf
  rw [heq] at hsuf
  exact suffix_mismatch h hsuf

theorem diff_self_empty (X : List DrawingObject) :
    (diff X X).added = [] ∧ (diff X X).removed = [] ∧ (diff X X).moved = [] := by
  refine ⟨?_, ?_, ?_⟩
  · apply List.filterMap_eq_nil_iff.mpr
    intro p hp
    have hl := alLookup_eq_some_of_mem (buildIndex_keysNodup X) hp
    rw [if_pos (by simp [alHasKey, hl])]
  · apply List.filterMap_eq_nil_iff.mpr
    intro p hp
    have hl := alLookup_eq_some_of_mem (buildIndex_keysNodup X) hp
    rw [if_pos (by simp [alHasKey, hl])]
  · apply List.filterMap_eq_nil_iff.mpr
    intro p hp
    have hl := alLookup_eq_some_of_mem (buildIndex_keysNodup X) hp
    dsimp only
    rw [hl]
    dsimp only
    rw [if_neg (by simp)]

theorem generateSummarySimple_eq_literal_iff (ad rm : List DrawingObject)
    (mv : List MovedRecord) :
    generateSummarySimple ad rm mv = "No changes detected." ↔
      (ad = [] ∧ rm = [] ∧ mv = []) := by
  constructor
  · intro h
    by_contra hne
    unfold generateSummarySimple at h
    rw [if_neg hne] at h
    rcases mv with _ | ⟨m, mv'⟩
    · rw [show movedParts [] = [] from rfl, List.append_nil] at h
      rcases ad with _ | ⟨o, ad'⟩
      · rw [show addedParts [] = [] from rfl, List.append_nil] at h
        rcases rm with _ | ⟨r, rm'⟩
        · exact hne ⟨rfl, rfl, rfl⟩
        · rcases rm' with _ | ⟨r2, rm''⟩
          · exact pyJoin_ne_literal ([] : List String) (by decide) h
          · exact pyJoin_ne_literal ([] : List String) (by decide) h
      · rcases ad' with _ | ⟨o2, ad''⟩
        · exact pyJoin_ne_literal (removedParts rm) (by decide) h
        · exact pyJoin_ne_literal (removedParts rm) (by decide) h
    · rcases mv' with _ | ⟨m2, mv''⟩
      · have hd := getDirection_mem_range m.deltaX m.deltaY
        simp only [List.mem_cons, List.not_mem_nil, or_false] at hd
        rcases hd with hd | hd | hd | hd | hd | hd | hd | hd | hd <;>
          rw [show movedParts [m] =
                [pyCapitalize m.type ++ " " ++ m.id ++ " moved " ++
                 toString (|m.deltaX| + |m.deltaY|) ++ " units " ++
                 getDirection m.deltaX m.deltaY] from rfl, hd] at h <;>
          exact pyJoin_ne_literal (removedParts rm ++ addedParts ad) (by decide) h
      · exact pyJoin_ne_literal (removedParts rm ++ addedParts ad) (by decide) h
  · rintro ⟨rfl, rfl, rfl⟩
    rfl

/-- Claim C8: `diff X X` returns empty added/removed/moved sequences and
the summary "No changes detected.", and the rule-based composer returns
that fixed literal exactly when all three categories are empty. -/
theorem claim_c8_identity_diff (X : List DrawingObject) :
    (diff X X).added = [] ∧ (diff X X).removed = [] ∧ (diff X X).moved = [] ∧
    (diff X X).summary = "No changes detected." ∧
    (∀ (ad rm : List DrawingObject) (mv : List MovedRecord),
       generateSummarySimple ad rm mv = "No changes detected." ↔
         (ad = [] ∧ rm = [] ∧ mv = [])) := by
  obtain ⟨h1, h2, h3⟩ := diff_self_empty X
  refine ⟨h1, h2, h3, ?_, generateSummarySimple_eq_literal_iff⟩
  have hs : (diff X X).summary =
      generateSummarySimple (diff X X).added (diff X X).removed (diff X X).moved := rfl
  rw [hs, h1, h2, h3]
  rfl

end BuildTrace
